import Mathlib

/-!
Verification development for the Visual-Warnings alert pipeline.

The definitions below are a shallow embedding of the Python sources:
`rss_service.py` (feed poller and deduplication store), `warning_service.py`
(alert normalizer), `map_service.py` (map composer and render pipeline) and
`automation.py` (scheduler loop).  Pure fragments become Lean functions;
stateful fragments become explicit state passing; network and renderer
effects become explicit oracles; fallible library calls return `Option`.
Python `str` values are modelled as Lean `String` (ASCII assumed where
case conversion is involved); `dict` values with string keys are modelled
as association lists in insertion order (Python 3.7+ dicts preserve
insertion order); Python `float` is modelled as `ℚ` restricted to the
plain decimal literals that occur in the feeds.
-/

namespace VisualWarnings

/-! ## Generic string helpers modelling Python `str` operations -/

/-- Membership test `needle in hay` on Python strings, as a prefix scan over
character lists. -/
def hasSubAux (n : List Char) : List Char → Bool
  | [] => n.isEmpty
  | c :: t => n.isPrefixOf (c :: t) || hasSubAux n t

/-- Python `needle in hay` for strings. -/
def strHasSub (hay needle : String) : Bool :=
  hasSubAux needle.data hay.data

/-- Python `str.lower` (ASCII). -/
def pyLower (s : String) : String :=
  String.mk (s.data.map Char.toLower)

/-- Python `str.strip()` on a character list: drop whitespace from both ends. -/
def pyStrip (l : List Char) : List Char :=
  ((l.dropWhile Char.isWhitespace).reverse.dropWhile Char.isWhitespace).reverse

/-- Python `str.strip()`. -/
def pyStripStr (s : String) : String :=
  String.mk (pyStrip s.data)

/-- Python `str.split(sep)` for a one-character separator: splits at every
occurrence and keeps empty pieces. -/
def splitOnChar (sep : Char) : List Char → List (List Char)
  | [] => [[]]
  | c :: t =>
    if c = sep then [] :: splitOnChar sep t
    else
      match splitOnChar sep t with
      | h :: r => (c :: h) :: r
      | [] => [[c]]

/-- Python `s.split(sep)` for a one-character separator, on `String`. -/
def pySplitChar (s : String) (sep : Char) : List String :=
  (splitOnChar sep s.data).map String.mk

/-- Index of the first occurrence of `n` in `hay` starting at offset `i`,
or `none`. -/
def pyFindAux (n : List Char) : List Char → ℕ → Option ℕ
  | [], i => if n.isEmpty then some i else none
  | c :: t, i => if n.isPrefixOf (c :: t) then some i else pyFindAux n t (i + 1)

/-- Python `hay.find(needle)`: index of first occurrence or `-1`. -/
def pyFind (hay needle : String) : ℤ :=
  match pyFindAux needle.data hay.data 0 with
  | some i => (i : ℤ)
  | none => -1

/-- Python `hay.find(needle, start)`: first occurrence at or after `start`,
or `-1`. -/
def pyFindFrom (hay needle : String) (start : ℕ) : ℤ :=
  match pyFindAux needle.data (hay.data.drop start) 0 with
  | some i => ((start + i : ℕ) : ℤ)
  | none => -1

/-- First non-`none` result of `f` over a list, in order; models a Python
`for` loop whose body may `return`. -/
def findFirst {α β : Type} (l : List α) (f : α → Option β) : Option β :=
  match l with
  | [] => none
  | x :: t =>
    match f x with
    | some b => some b
    | none => findFirst t f

/-! ## Timestamps: model of `datetime.fromisoformat` and `timedelta`

`rss_service._load_processed_alerts` parses the persisted `processed_at`
strings with `datetime.fromisoformat` and compares ages against
`timedelta(hours=24)`.  Timestamps are modelled as microseconds (`ℤ`) since
1970-01-01, matching `datetime` subtraction resolution.  The parser below
models `datetime.fromisoformat` on the naive `YYYY-MM-DD[*HH[:MM[:SS[.fff[fff]]]]]`
forms produced by `datetime.now().isoformat()` (timezone offsets never occur
in this store and are rejected). -/

/-- Numeric value of a digit string. -/
def natVal (l : List Char) : ℕ :=
  l.foldl (fun a c => 10 * a + (c.toNat - 48)) 0

/-- Read exactly two digits. -/
def read2 : List Char → Option (ℕ × List Char)
  | a :: b :: rest =>
    if a.isDigit && b.isDigit then some (10 * (a.toNat - 48) + (b.toNat - 48), rest)
    else none
  | _ => none

/-- Read exactly four digits. -/
def read4 : List Char → Option (ℕ × List Char)
  | a :: b :: c :: d :: rest =>
    if a.isDigit && b.isDigit && c.isDigit && d.isDigit then
      some (1000 * (a.toNat - 48) + 100 * (b.toNat - 48) + 10 * (c.toNat - 48) + (d.toNat - 48), rest)
    else none
  | _ => none

/-- Fractional-second suffix: empty, `.fff` (milliseconds) or `.ffffff`
(microseconds), as in `datetime.fromisoformat`; result in microseconds. -/
def readFrac : List Char → Option ℕ
  | [] => some 0
  | '.' :: ds =>
    if ds.length = 6 && ds.all Char.isDigit then some (natVal ds)
    else if ds.length = 3 && ds.all Char.isDigit then some (natVal ds * 1000)
    else none
  | _ => none

/-- Gregorian leap year. -/
def isLeapYear (y : ℕ) : Bool :=
  (y % 4 = 0 && y % 100 ≠ 0) || y % 400 = 0

/-- Days in a month (the validation `datetime` performs). -/
def daysInMonth (y : ℕ) (m : ℕ) : ℕ :=
  if m = 2 then (if isLeapYear y then 29 else 28)
  else if m = 4 || m = 6 || m = 9 || m = 11 then 30
  else 31

/-- Days since 1970-01-01 of a civil date (Hinnant's algorithm; the integer
divisions are truncating, matching the reference formulation). -/
def daysFromCivil (y : ℤ) (m d : ℕ) : ℤ :=
  let y2 : ℤ := if m ≤ 2 then y - 1 else y
  let era : ℤ := Int.tdiv (if 0 ≤ y2 then y2 else y2 - 399) 400
  let yoe : ℤ := y2 - era * 400
  let mp : ℤ := if 2 < m then (m : ℤ) - 3 else (m : ℤ) + 9
  let doy : ℤ := Int.tdiv (153 * mp + 2) 5 + (d : ℤ) - 1
  let doe : ℤ := yoe * 365 + Int.tdiv yoe 4 - Int.tdiv yoe 100 + doy
  era * 146097 + doe - 719468

/-- Time-of-day part after the date: absent, `*HH`, `*HH:MM`, `*HH:MM:SS`
or `*HH:MM:SS.frac`, where `*` is any one separator character. -/
def parseHMS : List Char → Option (ℕ × ℕ × ℕ × ℕ)
  | [] => some (0, 0, 0, 0)
  | _sep :: rest =>
    match read2 rest with
    | none => none
    | some (h, r1) =>
      match r1 with
      | [] => some (h, 0, 0, 0)
      | ':' :: r2 =>
        match read2 r2 with
        | none => none
        | some (mi, r3) =>
          match r3 with
          | [] => some (h, mi, 0, 0)
          | ':' :: r4 =>
            match read2 r4 with
            | none => none
            | some (sec, r5) =>
              match readFrac r5 with
              | some f => some (h, mi, sec, f)
              | none => none
          | _ => none
      | _ => none

/-- Model of `datetime.fromisoformat` for naive timestamps, returning
microseconds since 1970-01-01, or `none` when parsing fails (the code's
`except` path). -/
def fromisoformat (s : String) : Option ℤ :=
  match read4 s.data with
  | none => none
  | some (y, r1) =>
    match r1 with
    | '-' :: r2 =>
      match read2 r2 with
      | none => none
      | some (mo, r3) =>
        match r3 with
        | '-' :: r4 =>
          match read2 r4 with
          | none => none
          | some (d, r5) =>
            if 1 ≤ y ∧ 1 ≤ mo ∧ mo ≤ 12 ∧ 1 ≤ d ∧ d ≤ daysInMonth y mo then
              match parseHMS r5 with
              | some (h, mi, sec, f) =>
                if h ≤ 23 ∧ mi ≤ 59 ∧ sec ≤ 59 then
                  some ((daysFromCivil (y : ℤ) mo d * 86400
                        + (h : ℤ) * 3600 + (mi : ℤ) * 60 + (sec : ℤ)) * 1000000 + (f : ℤ))
                else none
              | none => none
            else none
        | _ => none
    | _ => none

/-- Value of `timedelta(hours=24)` in microseconds. -/
def day_us : ℤ := 86400000000

/-! ## Deduplication store and feed poller (`rss_service.py`)

A processed-alert record as persisted in `processed_alerts.json`:
`{'processed_at': <isoformat string>, 'event': <event or null>}`. -/

structure ProcessedInfo where
  processed_at : String
  event : Option String
deriving DecidableEq, Repr

/-- The in-memory `self.processed_alerts` dict, as an association list in
insertion order (keys unique in every state the code constructs). -/
abbrev Store := List (String × ProcessedInfo)

/-- Python dict lookup `store.get(id)` / `id in store`. -/
def lookupStore : Store → String → Option ProcessedInfo
  | [], _ => none
  | (k, v) :: rest, id => if k = id then some v else lookupStore rest id

/-- The fields of a normalized warning dict read by the poller loops:
`warning.get('id')` and `warning.get('event')` (either value may be Python
`None`, modelled as `none`); `_extract_warnings` always creates both keys. -/
structure Warning where
  id : Option String
  event : Option String
deriving DecidableEq, Repr

/-- A feed entry after ID extraction in `_process_rss_feed`: `alertId` is the
extracted `alert_id`, `none` when no `id`/`link` element yielded one. -/
structure Entry where
  alertId : Option String
deriving DecidableEq, Repr

/-- Outcome of `warning_service.get_warning_by_id` plus the feature check in
`_process_rss_feed`: the call raised (modelled: any exception inside the
per-entry `try`), returned `None`, or returned a dict whose `features` list
is as given (features are modelled post-`_extract_warnings`, which is total
per feature). -/
inductive FetchResult where
  | raised
  | noneResult
  | ok (features : List Warning)
deriving DecidableEq, Repr

/-- Model of `_process_json_api`, lines 104-116: the dedup filter over the extracted
warnings.  `now` is the `datetime.now().isoformat()` string recorded at mark
time.  Returns `(new_alerts, updated store)`. -/
def process_json_api (warnings : List Warning) (processed : Store) (now : String) :
    List Warning × Store :=
  match warnings with
  | [] => ([], processed)
  | w :: ws =>
    match w.id with
    | none => process_json_api ws processed now
    | some alert_id =>
      if alert_id = "" then process_json_api ws processed now
      else if lookupStore processed alert_id = none then
        (w :: (process_json_api ws (processed ++ [(alert_id, ⟨now, w.event⟩)]) now).1,
         (process_json_api ws (processed ++ [(alert_id, ⟨now, w.event⟩)]) now).2)
      else process_json_api ws processed now

/-- Model of `_process_rss_feed`, lines 194-247: the per-entry loop after entry/ID
extraction.  `fetch` is the oracle for `get_warning_by_id` composed with the
`features` check.  An entry is skipped when its ID is missing or falsy, when
the ID was already processed, and when resolution fails; an alert is appended
and its ID marked only on successful resolution. -/
def process_rss_feed (entries : List Entry) (fetch : String → FetchResult)
    (processed : Store) (now : String) : List Warning × Store :=
  match entries with
  | [] => ([], processed)
  | e :: es =>
    match e.alertId with
    | none => process_rss_feed es fetch processed now
    | some alert_id =>
      if alert_id = "" then process_rss_feed es fetch processed now
      else if (lookupStore processed alert_id).isSome then
        process_rss_feed es fetch processed now
      else
        match fetch alert_id with
        | .ok (w :: _) =>
          (w :: (process_rss_feed es fetch (processed ++ [(alert_id, ⟨now, w.event⟩)]) now).1,
           (process_rss_feed es fetch (processed ++ [(alert_id, ⟨now, w.event⟩)]) now).2)
        | _ => process_rss_feed es fetch processed now

/-- The resolution outcome `_process_rss_feed` acts on for an entry ID: the
first extracted feature when the by-ID fetch succeeded and carried features,
`none` when the fetch raised, returned nothing, or yielded no feature. -/
def resolveOk : FetchResult → Option Warning
  | .ok (w :: _) => some w
  | _ => none

/-- Model of `_load_processed_alerts`, lines 277-289: the 24-hour cleanup filter
applied to the persisted map at load time.  `data` is the parsed JSON
content; `now` is `datetime.now()` in microseconds.  A record whose
`processed_at` does not parse is kept (the per-record `except` path). -/
def load_processed_alerts (data : Store) (now : ℤ) : Store :=
  data.filter (fun p =>
    match fromisoformat p.2.processed_at with
    | some t => decide (now - t < day_us)
    | none => true)

/-! ## Polygon-string normalization (`warning_service._extract_warnings`,
lines 131-140) -/

/-- Model of Python `float()` on the plain decimal literals occurring in
polygon strings: optional sign, digits, optional fraction; surrounding
whitespace stripped; anything else fails. -/
def pyFloat (s : String) : Option ℚ :=
  let l := pyStrip s.data
  let sign : ℚ := match l with
    | '-' :: _ => -1
    | _ => 1
  let l2 : List Char := match l with
    | '-' :: r => r
    | '+' :: r => r
    | _ => l
  let intDigits := l2.takeWhile Char.isDigit
  let rest := l2.dropWhile Char.isDigit
  match rest with
  | [] =>
    if intDigits.isEmpty then none
    else some (sign * (natVal intDigits : ℚ))
  | '.' :: fr =>
    if (intDigits.isEmpty && fr.isEmpty) || !fr.all Char.isDigit then none
    else some (sign * ((natVal intDigits : ℚ) + (natVal fr : ℚ) / (10 : ℚ) ^ fr.length))
  | _ => none

/-- One `point_str` of the loop: `lat, lon = map(float, point_str.split(','))`;
any `ValueError` (wrong arity or unparsable part) yields `none` (`continue`). -/
def parsePoint (point_str : String) : Option (ℚ × ℚ) :=
  match pySplitChar point_str ',' with
  | [latStr, lonStr] =>
    match pyFloat latStr, pyFloat lonStr with
    | some lat, some lon => some (lat, lon)
    | _, _ => none
  | _ => none

/-- The polygon-string loop: split on spaces, parse each `lat,lon` pair,
append `[lon, lat]` (GeoJSON order), skipping unparsable points. -/
def extract_polygon_points (polygon_str : String) : List (List ℚ) :=
  (pySplitChar polygon_str ' ').foldl
    (fun polygon_points point_str =>
      match parsePoint point_str with
      | some p => polygon_points ++ [[p.2, p.1]]
      | none => polygon_points) []

/-! ## Warning colors (`map_service._get_warning_color`) -/

/-- The `warning_colors` dict, in source order. -/
def warning_colors : List (String × String) :=
  [("Tornado Warning", "#FF0000"),
   ("Tornado Emergency", "#FF00FF"),
   ("Severe Thunderstorm Warning", "#FFFF00"),
   ("Flash Flood Warning", "#00FF00"),
   ("Flash Flood Emergency", "#00FFFF"),
   ("Flood Warning", "#00A000"),
   ("Areal Flood Warning", "#00A0A0"),
   ("Flood Advisory", "#00A000"),
   ("Winter Storm Warning", "#FF69B4"),
   ("Ice Storm Warning", "#FF69B4"),
   ("Blizzard Warning", "#FF69B4"),
   ("Lake Effect Snow Warning", "#FF69B4"),
   ("Winter Weather Advisory", "#FFC0CB"),
   ("Freezing Rain Advisory", "#FFC0CB"),
   ("High Wind Warning", "#A52A2A"),
   ("Wind Advisory", "#DEB887"),
   ("Hurricane Warning", "#FD6347"),
   ("Tropical Storm Warning", "#FD6347"),
   ("Storm Surge Warning", "#FD6347"),
   ("Coastal Flood Warning", "#6495ED"),
   ("Red Flag Warning", "#FF4500"),
   ("Fire Weather Warning", "#FF4500"),
   ("Excessive Heat Warning", "#8B0000"),
   ("Heat Advisory", "#CD5C5C"),
   ("Wind Chill Warning", "#9400D3"),
   ("Extreme Cold Warning", "#9400D3"),
   ("Air Quality Alert", "#808080"),
   ("Dust Storm Warning", "#D2691E"),
   ("Dense Fog Advisory", "#F0E68C")]

/-- The `key_part` list of the substring-fallback loop, in source order. -/
def key_parts : List String :=
  ["Tornado", "Severe", "Flash Flood", "Flood", "Winter", "Wind",
   "Hurricane", "Tropical", "Heat", "Cold", "Fire"]

/-- The fallback chain after the exact lookup: the `key_part` double loop,
then the `"warning"`/`"watch"`/`"advisory"` checks, then gray. -/
def warning_color_fallback (event_type : String) : String :=
  match findFirst key_parts (fun key_part =>
      if strHasSub (pyLower event_type) (pyLower key_part) then
        findFirst warning_colors (fun p =>
          if strHasSub (pyLower p.1) (pyLower key_part) then some p.2 else none)
      else none) with
  | some c => c
  | none =>
    if strHasSub (pyLower event_type) "warning" then "#FF0000"
    else if strHasSub (pyLower event_type) "watch" then "#FFA500"
    else if strHasSub (pyLower event_type) "advisory" then "#FFFF00"
    else "#808080"

/-- Model of `_get_warning_color`: exact dict lookup first (`if color:` — the truthy
check on the looked-up value), then the fallback chain. -/
def get_warning_color (event_type : String) : String :=
  match findFirst warning_colors (fun p => if p.1 = event_type then some p.2 else none) with
  | some color => if color = "" then warning_color_fallback event_type else color
  | none => warning_color_fallback event_type

/-- Tier 1 of the spec's resolution order: exact match in the fixed
event-to-color table. -/
def exactTier (event_type : String) : Option String :=
  findFirst warning_colors (fun p => if p.1 = event_type then some p.2 else none)

/-- Tier 2 of the spec's resolution order: hazard-family substring match. -/
def familyTier (event_type : String) : Option String :=
  findFirst key_parts (fun key_part =>
    if strHasSub (pyLower event_type) (pyLower key_part) then
      findFirst warning_colors (fun p =>
        if strHasSub (pyLower p.1) (pyLower key_part) then some p.2 else none)
    else none)

/-- Tier 3 of the spec's resolution order: generic fallback on the words
`warning`/`watch`/`advisory`, then neutral gray. -/
def genericTier (event_type : String) : String :=
  if strHasSub (pyLower event_type) "warning" then "#FF0000"
  else if strHasSub (pyLower event_type) "watch" then "#FFA500"
  else if strHasSub (pyLower event_type) "advisory" then "#FFFF00"
  else "#808080"

/-- Modelled from the spec's words: the three-tier resolution order —
exact match, then hazard-family substring, then generic fallback. -/
def color_resolution_spec (event_type : String) : String :=
  match exactTier event_type with
  | some c => c
  | none =>
    match familyTier event_type with
    | some c => c
    | none => genericTier event_type

/-! ## Hazard summary (`map_service._extract_hazards_from_description`)

The source pattern is `re.search(r"HAZARD\\.\\.\\.([^\\n\\n]+)", description,
re.IGNORECASE)`.  Because the pattern is a *raw* string, each `\\` is an
escaped backslash in the regex, so it matches the literal text `HAZARD`
followed by backslash, any character, backslash, any character, backslash,
any character; the capture group is a maximal nonempty run of characters
that are not a backslash and not `n`/`N` (the class is case-insensitive
under `re.IGNORECASE`, and `.` does not match a newline). -/

/-- Case-insensitive literal prefix match; returns the remainder. -/
def ciMatch : List Char → List Char → Option (List Char)
  | [], s => some s
  | _ :: _, [] => none
  | p :: ps, c :: cs => if p.toLower = c.toLower then ciMatch ps cs else none

/-- Characters admitted by the capture group `[^\\n\\n]+` under
`re.IGNORECASE`. -/
def notClassN (c : Char) : Bool :=
  c ≠ '\\' && c ≠ 'n' && c ≠ 'N'

/-- Attempt the hazard pattern at the current position; returns the capture
group on success. -/
def hazardMatchAt (s : List Char) : Option (List Char) :=
  match ciMatch "hazard".data s with
  | none => none
  | some r =>
    match r with
    | '\\' :: a :: '\\' :: b :: '\\' :: c :: rest =>
      if a ≠ '\n' && b ≠ '\n' && c ≠ '\n' then
        match rest.takeWhile notClassN with
        | [] => none
        | g => some g
      else none
    | _ => none

/-- Model of `re.search` for the hazard pattern: leftmost match wins. -/
def hazardSearch : List Char → Option (List Char)
  | [] => none
  | c :: cs =>
    match hazardMatchAt (c :: cs) with
    | some g => some g
    | none => hazardSearch cs

/-- Python `hazards.replace("...", "")`: remove every non-overlapping
occurrence of three consecutive dots, left to right. -/
def replaceDots : List Char → List Char
  | '.' :: '.' :: '.' :: rest => replaceDots rest
  | c :: rest => c :: replaceDots rest
  | [] => []

/-- Model of `_extract_hazards_from_description`, lines 651-684. -/
def extract_hazards_from_description (description : String) : String :=
  if description = "" then "Not specified"
  else
    match hazardSearch description.data with
    | some g =>
      let hazards := pyStrip g
      let hazards2 := pyStrip (replaceDots hazards)
      if 250 < hazards2.length then String.mk (hazards2.take 250) ++ "..."
      else String.mk hazards2
    | none =>
      let dLower := pyLower description
      let potential_hazards : List String :=
        (if strHasSub dLower "hail" then ["Hail"] else []) ++
        (if strHasSub dLower "wind gusts" then ["Wind Gusts"] else []) ++
        (if strHasSub dLower "tornado" then ["Tornado"] else []) ++
        (if strHasSub dLower "flooding" then ["Flooding"] else [])
      if potential_hazards ≠ [] then String.intercalate ", " potential_hazards
      else "See description for details"

/-! ## Affected areas (`map_service._extract_affected_areas`) -/

/-- The fields of the warning dict read by `_extract_affected_areas`:
`areaDesc` is `none` when the key is absent (`'areaDesc' in warning` fails);
`headline` and `description` model `warning.get(key, '')`. -/
structure AreaWarning where
  areaDesc : Option String
  headline : String
  description : String
deriving DecidableEq, Repr

/-- Model of `_extract_affected_areas`, lines 609-649, mirroring the source's early
returns and fall-throughs. -/
def extract_affected_areas (w : AreaWarning) : String :=
  match w.areaDesc with
  | some a => a
  | none =>
    let headline := w.headline
    let hlLower := pyLower headline
    let headlineResult : Option String :=
      if strHasSub hlLower "county" || strHasSub hlLower "counties" then
        let counties_start := pyFind hlLower "county"
        if 0 < counties_start then
          some (String.mk (pyStrip (headline.data.take counties_start.toNat)))
        else none
      else none
    match headlineResult with
    | some s => s
    | none =>
      let description := w.description
      let descResult : Option String :=
        if description ≠ "" then
          let includes_idx := pyFind (pyLower description) "includes the count"
          if 0 < includes_idx then
            let start_idx := includes_idx + 18
            let end_idx := pyFindFrom description "." start_idx.toNat
            if start_idx < end_idx then
              some (String.mk (pyStrip
                ((description.data.drop start_idx.toNat).take (end_idx - start_idx).toNat)))
            else none
          else none
        else none
      match descResult with
      | some s => s
      | none => "See warning details for specific locations"

/-- Rule 1 of the spec's resolution order: the explicit area field when the
key is present. -/
def ruleExplicitArea (w : AreaWarning) : Option String :=
  w.areaDesc

/-- Rule 2 of the spec's resolution order: heuristic extraction around the
word `county`/`counties` in the headline. -/
def ruleHeadlineCounty (w : AreaWarning) : Option String :=
  if strHasSub (pyLower w.headline) "county" || strHasSub (pyLower w.headline) "counties" then
    if 0 < pyFind (pyLower w.headline) "county" then
      some (String.mk (pyStrip (w.headline.data.take (pyFind (pyLower w.headline) "county").toNat)))
    else none
  else none

/-- Rule 3 of the spec's resolution order: extraction following
`includes the count-` in the description, up to the next period. -/
def ruleDescriptionIncludes (w : AreaWarning) : Option String :=
  if w.description ≠ "" then
    if 0 < pyFind (pyLower w.description) "includes the count" then
      if pyFind (pyLower w.description) "includes the count" + 18 <
          pyFindFrom w.description "." (pyFind (pyLower w.description) "includes the count" + 18).toNat then
        some (String.mk (pyStrip
          ((w.description.data.drop (pyFind (pyLower w.description) "includes the count" + 18).toNat).take
            (pyFindFrom w.description "." (pyFind (pyLower w.description) "includes the count" + 18).toNat
              - (pyFind (pyLower w.description) "includes the count" + 18)).toNat)))
      else none
    else none
  else none

/-- Modelled from the spec's words: the first applicable rule of
explicit-area, headline-county, description-includes, generic placeholder. -/
def affected_areas_spec (w : AreaWarning) : String :=
  match ruleExplicitArea w with
  | some a => a
  | none =>
    match ruleHeadlineCounty w with
    | some s => s
    | none =>
      match ruleDescriptionIncludes w with
      | some s => s
      | none => "See warning details for specific locations"

/-! ## Render pipeline (`map_service.create_warning_map` tail and
`html_to_image`)

The filesystem is modelled as a duplicate-free list of paths; `m.save`
and `driver.save_screenshot` add a path, `os.remove` deletes it (removal
of an existing file is modelled as succeeding).  The rendering backend is
an oracle: `ok` means the screenshot was captured, `fail` means a
`WebDriverException` (or any other exception) was raised, which
`html_to_image` converts to the empty-string return. -/

inductive RenderOutcome where
  | ok
  | fail
deriving DecidableEq, Repr

/-- Add a path to the filesystem (overwrite keeps one copy). -/
def addPath (fs : List String) (p : String) : List String :=
  if p ∈ fs then fs else fs ++ [p]

/-- Model of `os.remove p`. -/
def removePath (fs : List String) (p : String) : List String :=
  fs.filter (fun q => decide (q ≠ p))

/-- Drop everything from the last `.` (inclusive), scanning the reversed
character list. -/
def dropAfterLastDot : List Char → Option (List Char)
  | [] => none
  | c :: rest => if c = '.' then some rest else dropAfterLastDot rest

/-- Model of `os.path.splitext(s)[0]` for the `<dir>/warning_<id>.html` paths this
pipeline builds (split at the last dot). -/
def splitextRoot (s : String) : String :=
  match dropAfterLastDot s.data.reverse with
  | some rest => String.mk rest.reverse
  | none => s

/-- Model of `html_to_image`, lines 417-505: on backend success the screenshot is
saved at the `.png` sibling path and that path returned; on any backend
exception the function returns the empty string and the filesystem is
untouched. -/
def html_to_image (backend : RenderOutcome) (html_path : String) (fs : List String) :
    String × List String :=
  match backend with
  | .ok => (splitextRoot html_path ++ ".png", addPath fs (splitextRoot html_path ++ ".png"))
  | .fail => ("", fs)

/-- The tail of `create_warning_map`, lines 389-411: save the composed HTML,
convert it; on a truthy image path delete the HTML and return the image
path, otherwise fall back to returning the HTML path. -/
def create_warning_map_finish (backend : RenderOutcome) (html_path : String)
    (fs : List String) : String × List String :=
  if (html_to_image backend html_path (addPath fs html_path)).1 ≠ "" then
    ((html_to_image backend html_path (addPath fs html_path)).1,
     removePath (html_to_image backend html_path (addPath fs html_path)).2 html_path)
  else
    (html_path, (html_to_image backend html_path (addPath fs html_path)).2)

/-- The path `os.path.join(self.output_dir, "warning_<id>.html")` as built at line 391. -/
def htmlPathFor (output_dir warning_id : String) : String :=
  output_dir ++ "/warning_" ++ warning_id ++ ".html"

/-- The sibling image path `html_to_image` produces for that HTML path. -/
def pngPathFor (output_dir warning_id : String) : String :=
  output_dir ++ "/warning_" ++ warning_id ++ ".png"

/-! ## Scheduler loop (`automation.main`, lines 240-267) -/

/-- The two jobs `main` registers on the `schedule` module. -/
inductive Job where
  | poll (intervalMinutes : ℕ)
  | cleanup (at_time : String) (maxAgeHours : ℕ)
deriving DecidableEq, Repr

/-- The jobs registered at startup and again on every self-heal reset. -/
def initialJobs (interval maxAge : ℕ) : List Job :=
  [Job.poll interval, Job.cleanup "03:00" maxAge]

/-- Observable scheduler-loop state: the `consecutive_errors` counter, the
registered jobs, and a ghost count of self-heal resets performed. -/
structure SchedulerState where
  consecutiveErrors : ℕ
  jobs : List Job
  resets : ℕ
deriving DecidableEq, Repr

/-- Outcome of one `while True` iteration body (`schedule.run_pending()`
plus the sleep): it either completed or raised. -/
inductive CycleResult where
  | success
  | failure
deriving DecidableEq, Repr

/-- Threshold `max_consecutive_errors = 5`. -/
def maxConsecutiveErrors : ℕ := 5

/-- One iteration of the scheduler loop: success resets the counter; a
failure increments it, and at the threshold the jobs are cleared and
re-registered and the counter returns to zero. -/
def schedulerStep (interval maxAge : ℕ) (s : SchedulerState) (r : CycleResult) :
    SchedulerState :=
  match r with
  | .success => { s with consecutiveErrors := 0 }
  | .failure =>
    if maxConsecutiveErrors ≤ s.consecutiveErrors + 1 then
      { consecutiveErrors := 0, jobs := initialJobs interval maxAge, resets := s.resets + 1 }
    else
      { s with consecutiveErrors := s.consecutiveErrors + 1 }

/-- Apply `n` consecutive failing iterations. -/
def stepFailN (interval maxAge : ℕ) : ℕ → SchedulerState → SchedulerState
  | 0, s => s
  | n + 1, s => stepFailN interval maxAge n (schedulerStep interval maxAge s .failure)

end VisualWarnings

namespace VisualWarnings

/-! ## Helper lemmas -/

/-- A successful `findFirst` result comes from some list element. -/
theorem findFirst_eq_some {α β : Type} (f : α → Option β) :
    ∀ (l : List α) (b : β), findFirst l f = some b → ∃ a ∈ l, f a = some b := by
  intro l
  induction l with
  | nil => intro b h; simp [findFirst] at h
  | cons x t ih =>
    intro b h
    simp only [findFirst] at h
    cases hx : f x with
    | some c =>
      rw [hx] at h
      simp only [Option.some.injEq] at h
      exact ⟨x, by simp, by rw [hx, h]⟩
    | none =>
      rw [hx] at h
      obtain ⟨a, ha, hfa⟩ := ih b h
      exact ⟨a, by simp [ha], hfa⟩

/-- Lookup ignores a right extension when the key is found on the left. -/
theorem lookupStore_append_of_some (a b : Store) (id : String) (v : ProcessedInfo)
    (h : lookupStore a id = some v) : lookupStore (a ++ b) id = some v := by
  induction a with
  | nil => simp [lookupStore] at h
  | cons p t ih =>
    obtain ⟨k, w⟩ := p
    by_cases hk : k = id
    · simp only [lookupStore, if_pos hk] at h ⊢
      exact h
    · simp only [lookupStore, if_neg hk] at h ⊢
      exact ih h

/-- Lookup falls through to the right extension when the key is absent on
the left. -/
theorem lookupStore_append_of_none (a b : Store) (id : String)
    (h : lookupStore a id = none) : lookupStore (a ++ b) id = lookupStore b id := by
  induction a with
  | nil => rfl
  | cons p t ih =>
    obtain ⟨k, w⟩ := p
    by_cases hk : k = id
    · simp only [lookupStore, if_pos hk] at h
      exact Option.noConfusion h
    · simp only [lookupStore, if_neg hk] at h ⊢
      exact ih h

/-- A present pair makes lookup succeed. -/
theorem lookup_isSome_of_mem (st : Store) (id : String) (rec : ProcessedInfo)
    (h : (id, rec) ∈ st) : (lookupStore st id).isSome := by
  induction st with
  | nil => simp at h
  | cons p t ih =>
    obtain ⟨k, v⟩ := p
    by_cases hk : k = id
    · simp [lookupStore, hk]
    · simp only [lookupStore, if_neg hk]
      rcases List.mem_cons.mp h with h1 | h1
      · exact absurd (congrArg Prod.fst h1).symm hk
      · exact ih h1

/-- Unfolding `stepFailN` from the far end. -/
theorem stepFailN_succ (iv ma : ℕ) : ∀ (n : ℕ) (s : SchedulerState),
    stepFailN iv ma (n + 1) s = schedulerStep iv ma (stepFailN iv ma n s) .failure
  | 0, _ => rfl
  | n + 1, s => stepFailN_succ iv ma n (schedulerStep iv ma s .failure)

/-- Failures below the threshold only increment the counter. -/
theorem stepFailN_below (iv ma : ℕ) (k : ℕ) : ∀ (c : ℕ), c + k ≤ 4 → ∀ (jobs : List Job) (r : ℕ),
    stepFailN iv ma k ⟨c, jobs, r⟩ = ⟨c + k, jobs, r⟩ := by
  induction k with
  | zero => intro c _ jobs r; rfl
  | succ k ih =>
    intro c h jobs r
    have hstep : schedulerStep iv ma ⟨c, jobs, r⟩ .failure = ⟨c + 1, jobs, r⟩ := by
      simp only [schedulerStep]
      rw [if_neg (show ¬ (maxConsecutiveErrors ≤ c + 1) by
        simp only [maxConsecutiveErrors]; omega)]
    calc stepFailN iv ma (k + 1) ⟨c, jobs, r⟩
        = stepFailN iv ma k (schedulerStep iv ma ⟨c, jobs, r⟩ .failure) := rfl
      _ = stepFailN iv ma k ⟨c + 1, jobs, r⟩ := by rw [hstep]
      _ = ⟨c + 1 + k, jobs, r⟩ := ih (c + 1) (by omega) jobs r
      _ = ⟨c + (k + 1), jobs, r⟩ := by rw [show c + 1 + k = c + (k + 1) by omega]

/-- A freshly added path is present. -/
theorem mem_addPath_self (fs : List String) (p : String) : p ∈ addPath fs p := by
  unfold addPath
  by_cases h : p ∈ fs
  · rw [if_pos h]; exact h
  · rw [if_neg h]; simp

/-- Stripping a `.html` extension with `splitextRoot`. -/
theorem splitextRoot_append_html (x : String) : splitextRoot (x ++ ".html") = x := by
  obtain ⟨d⟩ := x
  have h0 : (String.mk d ++ ".html").data.reverse
      = ('l' :: 'm' :: 't' :: 'h' :: '.' :: []) ++ d.reverse := by
    show (d ++ ('.' :: 'h' :: 't' :: 'm' :: 'l' :: [])).reverse = _
    rw [List.reverse_append]
    rfl
  simp only [splitextRoot, h0]
  show String.mk d.reverse.reverse = String.mk d
  rw [List.reverse_reverse]

/-- The sibling image path differs from the HTML path. -/
theorem append_png_ne_append_html (x : String) : x ++ ".png" ≠ x ++ ".html" := by
  intro h
  have h2 : x.data ++ ('.' :: 'p' :: 'n' :: 'g' :: [])
      = x.data ++ ('.' :: 'h' :: 't' :: 'm' :: 'l' :: []) := congrArg String.data h
  simp at h2

/-- The image path is a truthy (non-empty) string. -/
theorem append_png_ne_empty (x : String) : x ++ ".png" ≠ "" := by
  intro h
  have h2 : x.data ++ ('.' :: 'p' :: 'n' :: 'g' :: []) = [] := congrArg String.data h
  simp at h2

end VisualWarnings

namespace VisualWarnings

/-! ## Claim theorems: scheduler, render pipeline, polygon normalization -/

/-- C4: the run loop counts consecutive failed iterations; when the counter
reaches the fixed threshold 5 the scheduler re-registers the poll and
cleanup jobs fresh and resets the counter to 0, so another reset requires 5
further consecutive failures; below the threshold a failure only increments
the counter, and any successful iteration resets the counter to 0. -/
theorem scheduler_self_heal (iv ma : ℕ) (s : SchedulerState) (c : Fin 4) (k : Fin 5)
    (jobs : List Job) (r : ℕ) :
    schedulerStep iv ma s .success = { s with consecutiveErrors := 0 } ∧
    schedulerStep iv ma ⟨c.val, jobs, r⟩ .failure = ⟨c.val + 1, jobs, r⟩ ∧
    schedulerStep iv ma ⟨4, jobs, r⟩ .failure = ⟨0, initialJobs iv ma, r + 1⟩ ∧
    (stepFailN iv ma k.val ⟨0, jobs, r⟩).resets = r ∧
    (stepFailN iv ma k.val ⟨0, jobs, r⟩).jobs = jobs ∧
    stepFailN iv ma 5 ⟨0, jobs, r⟩ = ⟨0, initialJobs iv ma, r + 1⟩ := by
  have hk4 : (0 : ℕ) + k.val ≤ 4 := by have := k.isLt; omega
  have hbelow := stepFailN_below iv ma k.val 0 hk4 jobs r
  refine ⟨rfl, ?_, rfl, ?_, ?_, ?_⟩
  · simp only [schedulerStep]
    rw [if_neg (show ¬ (maxConsecutiveErrors ≤ c.val + 1) by
      have := c.isLt; simp only [maxConsecutiveErrors]; omega)]
  · rw [hbelow]
  · rw [hbelow]
  · rw [stepFailN_succ, stepFailN_below iv ma 4 0 (by omega) jobs r]
    rfl

/-- C5: when rasterization succeeds the intermediate HTML document is
deleted and only the PNG path is returned; when the rendering backend fails
the HTML document remains on disk and its path is returned instead. -/
theorem render_fallback (output_dir warning_id : String) (fs : List String) :
    (create_warning_map_finish .ok (htmlPathFor output_dir warning_id) fs).1
      = pngPathFor output_dir warning_id ∧
    htmlPathFor output_dir warning_id
      ∉ (create_warning_map_finish .ok (htmlPathFor output_dir warning_id) fs).2 ∧
    pngPathFor output_dir warning_id
      ∈ (create_warning_map_finish .ok (htmlPathFor output_dir warning_id) fs).2 ∧
    (create_warning_map_finish .fail (htmlPathFor output_dir warning_id) fs).1
      = htmlPathFor output_dir warning_id ∧
    htmlPathFor output_dir warning_id
      ∈ (create_warning_map_finish .fail (htmlPathFor output_dir warning_id) fs).2 := by
  have hroot : splitextRoot (htmlPathFor output_dir warning_id)
      = output_dir ++ "/warning_" ++ warning_id :=
    splitextRoot_append_html (output_dir ++ "/warning_" ++ warning_id)
  have hpng : splitextRoot (htmlPathFor output_dir warning_id) ++ ".png"
      = pngPathFor output_dir warning_id := by rw [hroot]; rfl
  have hne : splitextRoot (htmlPathFor output_dir warning_id) ++ ".png" ≠ "" := by
    rw [hroot]; exact append_png_ne_empty _
  have hnehtml : pngPathFor output_dir warning_id ≠ htmlPathFor output_dir warning_id :=
    append_png_ne_append_html (output_dir ++ "/warning_" ++ warning_id)
  simp only [create_warning_map_finish, html_to_image]
  rw [if_pos hne]
  refine ⟨hpng, ?_, ?_, rfl, mem_addPath_self fs _⟩
  · intro hmem
    rw [removePath, List.mem_filter] at hmem
    simp at hmem
  · rw [removePath, List.mem_filter]
    refine ⟨?_, by simp [hnehtml]⟩
    rw [hpng.symm] at *
    exact mem_addPath_self _ _

/-- Append-accumulator characterization of the polygon-point fold. -/
theorem polygon_foldl_eq (toks : List String) : ∀ (acc : List (List ℚ)),
    toks.foldl (fun polygon_points point_str =>
      match parsePoint point_str with
      | some p => polygon_points ++ [[p.2, p.1]]
      | none => polygon_points) acc
    = acc ++ (toks.filterMap parsePoint).map (fun p => [p.2, p.1]) := by
  induction toks with
  | nil => intro acc; simp
  | cons t ts ih =>
    intro acc
    cases hp : parsePoint t with
    | none => simp [List.foldl_cons, hp, List.filterMap_cons, ih]
    | some p => simp [List.foldl_cons, hp, List.filterMap_cons, ih]

/-- C7: a flat lat,lon polygon string normalizes to the ordered sequence of
lon,lat pairs, preserving point order; in particular the three-point example
string normalizes as the spec states. -/
theorem polygon_normalization :
    extract_polygon_points "35.0,-88.0 35.1,-88.1 35.2,-88.2"
      = [[(-88 : ℚ), 35], [(-881 : ℚ)/10, (351 : ℚ)/10], [(-882 : ℚ)/10, (352 : ℚ)/10]] ∧
    ∀ polygon_str : String,
      extract_polygon_points polygon_str
        = ((pySplitChar polygon_str ' ').filterMap parsePoint).map (fun p => [p.2, p.1]) := by
  constructor
  · with_unfolding_all rfl
  · intro s
    unfold extract_polygon_points
    rw [polygon_foldl_eq]
    simp

end VisualWarnings

namespace VisualWarnings

/-! ## Poller invariants -/

/-- An ID already in the store is never re-emitted nor re-marked by the
JSON-API poll loop, and its stored record is untouched. -/
theorem process_json_api_seen (ws : List Warning) (st : Store) (now : String)
    (id : String) (h : (lookupStore st id).isSome) :
    (∀ w ∈ (process_json_api ws st now).1, w.id ≠ some id) ∧
    lookupStore (process_json_api ws st now).2 id = lookupStore st id := by
  induction ws generalizing st with
  | nil =>
    refine ⟨?_, rfl⟩
    intro w hw
    simp [process_json_api] at hw
  | cons w ws ih =>
    obtain ⟨wid, wev⟩ := w
    cases wid with
    | none => exact ih st h
    | some aid =>
      by_cases he : aid = ""
      · simp only [process_json_api, if_pos he]
        exact ih st h
      · by_cases hn : lookupStore st aid = none
        · have hne : aid ≠ id := by
            intro heq
            rw [heq] at hn
            rw [hn] at h
            simp at h
          obtain ⟨v, hv⟩ := Option.isSome_iff_exists.mp h
          have h2 : (lookupStore (st ++ [(aid, ⟨now, wev⟩)]) id).isSome := by
            rw [lookupStore_append_of_some _ _ _ _ hv]
            rfl
          have h3 := ih (st ++ [(aid, ⟨now, wev⟩)]) h2
          simp only [process_json_api, if_neg he, if_pos hn]
          constructor
          · intro w' hw'
            have hw2 : w' = Warning.mk (some aid) wev
                ∨ w' ∈ (process_json_api ws (st ++ [(aid, ⟨now, wev⟩)]) now).1 :=
              List.mem_cons.mp hw'
            rcases hw2 with hw2 | hw2
            · rw [hw2]
              intro hc
              exact hne (by injection hc)
            · exact h3.1 w' hw2
          · rw [h3.2, lookupStore_append_of_some _ _ _ _ hv, hv]
        · simp only [process_json_api, if_neg he, if_neg hn]
          exact ih st h

/-! ## Claim theorems: TTL load filter, colors, hazards, areas -/

/-- C2 counterexample: a record aged exactly 24 hours — an age that does
not exceed 24 hours — is discarded by the load filter, because the code
keeps a record only when its age is strictly below `timedelta(hours=24)`. -/
theorem ttl_exact_24h_counterexample :
    (fromisoformat "2026-10-11T00:00:00").isSome = true ∧
    (fromisoformat "2026-10-12T00:00:00").getD 0
        - (fromisoformat "2026-10-11T00:00:00").getD 0 = day_us ∧
    load_processed_alerts [("A", ⟨"2026-10-11T00:00:00", some "Tornado Warning"⟩)]
        ((fromisoformat "2026-10-12T00:00:00").getD 0)
      = [] := by
  refine ⟨by decide, by decide, by decide⟩

/-- C2 (amended): load is a pure filter on the persisted records — a record
with a parseable `processed_at` is retained exactly when its age is strictly
below 24 hours (a record aged exactly 24 hours is discarded), and nothing is
added. -/
theorem ttl_expiry_at_load (data : Store) (now : ℤ) (id : String)
    (rec : ProcessedInfo) (t : ℤ) (hp : fromisoformat rec.processed_at = some t) :
    ((id, rec) ∈ load_processed_alerts data now ↔ (id, rec) ∈ data ∧ now - t < day_us) ∧
    List.Sublist (load_processed_alerts data now) data := by
  constructor
  · unfold load_processed_alerts
    rw [List.mem_filter]
    simp [hp]
  · exact List.filter_sublist data

/-- C2 witness: the amended theorem at a concrete store and time. -/
theorem ttl_expiry_at_load_witness :
    ((("A" : String), (⟨"2026-10-11T00:00:01", some "E"⟩ : ProcessedInfo))
        ∈ load_processed_alerts [("A", ⟨"2026-10-11T00:00:01", some "E"⟩)]
            ((fromisoformat "2026-10-12T00:00:00").getD 0)
      ↔ (("A" : String), (⟨"2026-10-11T00:00:01", some "E"⟩ : ProcessedInfo))
            ∈ [("A", (⟨"2026-10-11T00:00:01", some "E"⟩ : ProcessedInfo))]
        ∧ (fromisoformat "2026-10-12T00:00:00").getD 0
            - (fromisoformat "2026-10-11T00:00:01").getD 0 < day_us) ∧
    List.Sublist
      (load_processed_alerts [("A", ⟨"2026-10-11T00:00:01", some "E"⟩)]
        ((fromisoformat "2026-10-12T00:00:00").getD 0))
      [("A", ⟨"2026-10-11T00:00:01", some "E"⟩)] :=
  ttl_expiry_at_load [("A", ⟨"2026-10-11T00:00:01", some "E"⟩)]
    ((fromisoformat "2026-10-12T00:00:00").getD 0) "A"
    ⟨"2026-10-11T00:00:01", some "E"⟩
    ((fromisoformat "2026-10-11T00:00:01").getD 0) (by decide)

/-- C10: a persisted record whose `processed_at` does not parse is kept by
the load filter for every load time, its ID still answers lookups, and a
subsequent poll therefore reports no new alert for that ID. -/
theorem unparseable_timestamp_retained (data : Store) (now : ℤ) (id : String)
    (rec : ProcessedInfo) (ws : List Warning) (nowJ : String)
    (hmem : (id, rec) ∈ data) (hparse : fromisoformat rec.processed_at = none) :
    (id, rec) ∈ load_processed_alerts data now ∧
    (lookupStore (load_processed_alerts data now) id).isSome = true ∧
    some id ∉ (process_json_api ws (load_processed_alerts data now) nowJ).1.map Warning.id := by
  have h1 : (id, rec) ∈ load_processed_alerts data now := by
    unfold load_processed_alerts
    rw [List.mem_filter]
    exact ⟨hmem, by simp [hparse]⟩
  have h2 : (lookupStore (load_processed_alerts data now) id).isSome :=
    lookup_isSome_of_mem _ _ _ h1
  refine ⟨h1, h2, ?_⟩
  intro hin
  obtain ⟨w, hw, hid⟩ := List.mem_map.mp hin
  exact (process_json_api_seen ws _ nowJ id h2).1 w hw hid

end VisualWarnings

namespace VisualWarnings

set_option maxRecDepth 8000 in
/-- C6: the display color is resolved by exact table match, then
hazard-family substring match, then the generic warning/watch/advisory
fallback, then neutral gray, in exactly that order; the three spec examples
land in tiers 1, 2 and 3 respectively. -/
theorem color_resolution_order_holds :
    (∀ event_type : String,
      get_warning_color event_type = color_resolution_spec event_type) ∧
    exactTier "Severe Thunderstorm Warning" = some "#FFFF00" ∧
    get_warning_color "Severe Thunderstorm Warning" = "#FFFF00" ∧
    exactTier "Tornado Emergency Update" = none ∧
    familyTier "Tornado Emergency Update" = some "#FF0000" ∧
    get_warning_color "Tornado Emergency Update" = "#FF0000" ∧
    exactTier "Unknown Phenomenon Watch" = none ∧
    familyTier "Unknown Phenomenon Watch" = none ∧
    get_warning_color "Unknown Phenomenon Watch" = "#FFA500" := by
  refine ⟨?_, by decide, by decide, by decide, by decide, by decide, by decide,
    by decide, by decide⟩
  intro e
  have hvals : ∀ p ∈ warning_colors, p.2 ≠ "" := by decide
  show (match exactTier e with
        | some color => if color = "" then warning_color_fallback e else color
        | none => warning_color_fallback e) = color_resolution_spec e
  cases hx : exactTier e with
  | none =>
    unfold color_resolution_spec
    rw [hx]
    rfl
  | some c =>
    have hc : c ≠ "" := by
      have hx2 : findFirst warning_colors
          (fun p => if p.1 = e then some p.2 else none) = some c := hx
      obtain ⟨p, hp, hfp⟩ := findFirst_eq_some _ warning_colors c hx2
      by_cases hpe : p.1 = e
      · rw [if_pos hpe] at hfp
        have h2 : p.2 = c := by injection hfp
        rw [← h2]
        exact hvals p hp
      · rw [if_neg hpe] at hfp
        exact Option.noConfusion hfp
    unfold color_resolution_spec
    rw [hx]
    show (if c = "" then warning_color_fallback e else c) = c
    rw [if_neg hc]

set_option maxRecDepth 8000 in
/-- C8: the hazard regex, written with doubled backslashes inside a raw
string, never matches a genuine labeled HAZARD section (it requires literal
backslashes), so such a description falls through to the keyword scan; the
keyword, empty-description and backslash-literal behaviors are evaluated
explicitly. -/
theorem hazard_section_regex_miss :
    hazardSearch ("HAZARD...Large hail and damaging winds.".data) = none ∧
    extract_hazards_from_description "HAZARD...Large hail and damaging winds." = "Hail" ∧
    extract_hazards_from_description "HAZARD\\a\\b\\cHail risk" = "Hail risk" ∧
    extract_hazards_from_description "" = "Not specified" ∧
    extract_hazards_from_description "expect wind gusts and flooding"
      = "Wind Gusts, Flooding" ∧
    extract_hazards_from_description "calm conditions" = "See description for details" := by
  refine ⟨by decide, by decide, by decide, by decide, by decide, by decide⟩

set_option maxRecDepth 8000 in
/-- C9: the affected-area text is resolved by the first applicable rule of
explicit area field, headline county heuristic, description
includes-the-count extraction, then a generic placeholder; the four closed
instances exercise each rule, including the fall-through when the explicit
area field is absent. -/
theorem affected_area_resolution :
    (∀ w : AreaWarning, extract_affected_areas w = affected_areas_spec w) ∧
    extract_affected_areas ⟨some "Livingston; Marshall", "h", "d"⟩ = "Livingston; Marshall" ∧
    extract_affected_areas ⟨none, "Tornado Warning for Smith County until noon", ""⟩
      = "Tornado Warning for Smith" ∧
    extract_affected_areas ⟨none, "no match here",
      "This includes the counties of Smith and Jones. Take cover."⟩
      = "ies of Smith and Jones" ∧
    extract_affected_areas ⟨none, "", ""⟩ = "See warning details for specific locations" := by
  refine ⟨?_, by decide, by decide, by decide, by decide⟩
  intro w
  rfl

end VisualWarnings

namespace VisualWarnings

/-- An ID already in the store makes the RSS loop behave as if every entry
bearing that ID were absent from the feed, and leaves its stored record
untouched. -/
theorem process_rss_feed_seen (es : List Entry) (fetch : String → FetchResult) (st : Store)
    (now : String) (id : String) (h : (lookupStore st id).isSome) :
    process_rss_feed es fetch st now
      = process_rss_feed (es.filter (fun e => decide (e.alertId ≠ some id))) fetch st now ∧
    lookupStore (process_rss_feed es fetch st now).2 id = lookupStore st id := by
  induction es generalizing st with
  | nil => exact ⟨rfl, rfl⟩
  | cons e es ih =>
    obtain ⟨eid⟩ := e
    cases eid with
    | none =>
      have h1 := ih st h
      have hf : (Entry.mk none :: es).filter (fun e => decide (e.alertId ≠ some id))
          = Entry.mk none :: es.filter (fun e => decide (e.alertId ≠ some id)) := by
        simp
      refine ⟨?_, h1.2⟩
      rw [hf]
      exact h1.1
    | some aid =>
      by_cases heq : aid = id
      · subst heq
        have hf : (Entry.mk (some aid) :: es).filter (fun e => decide (e.alertId ≠ some aid))
            = es.filter (fun e => decide (e.alertId ≠ some aid)) := by
          simp
        have hskip : process_rss_feed (Entry.mk (some aid) :: es) fetch st now
            = process_rss_feed es fetch st now := by
          by_cases he : aid = ""
          · simp only [process_rss_feed, if_pos he]
          · simp only [process_rss_feed, if_neg he, if_pos h]
        rw [hf, hskip]
        exact ih st h
      · have hf : (Entry.mk (some aid) :: es).filter (fun e => decide (e.alertId ≠ some id))
            = Entry.mk (some aid) :: es.filter (fun e => decide (e.alertId ≠ some id)) := by
          simp [heq]
        rw [hf]
        by_cases he : aid = ""
        · have h1 := ih st h
          refine ⟨?_, ?_⟩
          · simp only [process_rss_feed, if_pos he]
            exact h1.1
          · simp only [process_rss_feed, if_pos he]
            exact h1.2
        · by_cases hseen : (lookupStore st aid).isSome
          · have h1 := ih st h
            refine ⟨?_, ?_⟩
            · simp only [process_rss_feed, if_neg he, if_pos hseen]
              exact h1.1
            · simp only [process_rss_feed, if_neg he, if_pos hseen]
              exact h1.2
          · cases hfetch : fetch aid with
            | raised =>
              have h1 := ih st h
              refine ⟨?_, ?_⟩
              · simp only [process_rss_feed, if_neg he, if_neg hseen, hfetch]
                exact h1.1
              · simp only [process_rss_feed, if_neg he, if_neg hseen, hfetch]
                exact h1.2
            | noneResult =>
              have h1 := ih st h
              refine ⟨?_, ?_⟩
              · simp only [process_rss_feed, if_neg he, if_neg hseen, hfetch]
                exact h1.1
              · simp only [process_rss_feed, if_neg he, if_neg hseen, hfetch]
                exact h1.2
            | ok fs =>
              cases fs with
              | nil =>
                have h1 := ih st h
                refine ⟨?_, ?_⟩
                · simp only [process_rss_feed, if_neg he, if_neg hseen, hfetch]
                  exact h1.1
                · simp only [process_rss_feed, if_neg he, if_neg hseen, hfetch]
                  exact h1.2
              | cons w rest =>
                obtain ⟨v, hv⟩ := Option.isSome_iff_exists.mp h
                have h2 : (lookupStore (st ++ [(aid, ⟨now, w.event⟩)]) id).isSome := by
                  rw [lookupStore_append_of_some _ _ _ _ hv]
                  rfl
                have h1 := ih (st ++ [(aid, ⟨now, w.event⟩)]) h2
                refine ⟨?_, ?_⟩
                · simp only [process_rss_feed, if_neg he, if_neg hseen, hfetch]
                  rw [h1.1]
                · simp only [process_rss_feed, if_neg he, if_neg hseen, hfetch]
                  rw [h1.2, lookupStore_append_of_some _ _ _ _ hv, hv]

end VisualWarnings

namespace VisualWarnings

/-- C1: an alert ID already recorded in the store yields zero new alerts on
a subsequent poll through either feed path, and its stored record
(`processed_at`, `event`) is left unchanged — the first mark wins. -/
theorem dedup_idempotence (ws : List Warning) (es : List Entry)
    (fetch : String → FetchResult) (st : Store) (nowJ nowR : String)
    (id : String) (info : ProcessedInfo) (h : lookupStore st id = some info) :
    some id ∉ (process_json_api ws st nowJ).1.map Warning.id ∧
    lookupStore (process_json_api ws st nowJ).2 id = some info ∧
    process_rss_feed es fetch st nowR
      = process_rss_feed (es.filter (fun e => decide (e.alertId ≠ some id))) fetch st nowR ∧
    lookupStore (process_rss_feed es fetch st nowR).2 id = some info := by
  have hs : (lookupStore st id).isSome := by rw [h]; rfl
  have hj := process_json_api_seen ws st nowJ id hs
  have hr := process_rss_feed_seen es fetch st nowR id hs
  refine ⟨?_, by rw [hj.2, h], hr.1, by rw [hr.2, h]⟩
  intro hin
  obtain ⟨w, hw, hid⟩ := List.mem_map.mp hin
  exact hj.1 w hw hid

/-- C1 witness: the theorem at a concrete store, feed and entry list. -/
theorem dedup_idempotence_witness :
    some "A" ∉ (process_json_api [⟨some "A", some "Tornado Warning"⟩]
        [("A", ⟨"2026-10-11T00:00:00", some "Tornado Warning"⟩)]
        "2026-10-11T01:00:00").1.map Warning.id ∧
    lookupStore (process_json_api [⟨some "A", some "Tornado Warning"⟩]
        [("A", ⟨"2026-10-11T00:00:00", some "Tornado Warning"⟩)]
        "2026-10-11T01:00:00").2 "A"
      = some ⟨"2026-10-11T00:00:00", some "Tornado Warning"⟩ ∧
    process_rss_feed [⟨some "A"⟩] (fun _ => FetchResult.raised)
        [("A", ⟨"2026-10-11T00:00:00", some "Tornado Warning"⟩)] "2026-10-11T01:00:00"
      = process_rss_feed
          (([⟨some "A"⟩] : List Entry).filter (fun e => decide (e.alertId ≠ some "A")))
          (fun _ => FetchResult.raised)
          [("A", ⟨"2026-10-11T00:00:00", some "Tornado Warning"⟩)] "2026-10-11T01:00:00" ∧
    lookupStore (process_rss_feed [⟨some "A"⟩] (fun _ => FetchResult.raised)
        [("A", ⟨"2026-10-11T00:00:00", some "Tornado Warning"⟩)]
        "2026-10-11T01:00:00").2 "A"
      = some ⟨"2026-10-11T00:00:00", some "Tornado Warning"⟩ :=
  dedup_idempotence [⟨some "A", some "Tornado Warning"⟩] [⟨some "A"⟩]
    (fun _ => FetchResult.raised)
    [("A", ⟨"2026-10-11T00:00:00", some "Tornado Warning"⟩)]
    "2026-10-11T01:00:00" "2026-10-11T01:00:00" "A"
    ⟨"2026-10-11T00:00:00", some "Tornado Warning"⟩ rfl

/-- C3: for an ID not already present, the RSS loop leaves the store either
without that ID, or holding exactly the record built from the successfully
resolved first feature — so a by-ID fetch that raises, returns nothing or
yields no feature marks nothing, and the entry is retried on the next poll. -/
theorem mark_on_success (es : List Entry) (fetch : String → FetchResult) (st : Store)
    (now : String) (id : String) (h0 : lookupStore st id = none) :
    lookupStore (process_rss_feed es fetch st now).2 id = none ∨
    lookupStore (process_rss_feed es fetch st now).2 id
      = (resolveOk (fetch id)).map (fun w => ProcessedInfo.mk now w.event) := by
  induction es generalizing st with
  | nil => exact Or.inl h0
  | cons e es ih =>
    obtain ⟨eid⟩ := e
    cases eid with
    | none => exact ih st h0
    | some aid =>
      by_cases he : aid = ""
      · have hstep : process_rss_feed (Entry.mk (some aid) :: es) fetch st now
            = process_rss_feed es fetch st now := by
          simp only [process_rss_feed, if_pos he]
        rw [hstep]
        exact ih st h0
      · by_cases hseen : (lookupStore st aid).isSome
        · have hstep : process_rss_feed (Entry.mk (some aid) :: es) fetch st now
              = process_rss_feed es fetch st now := by
            simp only [process_rss_feed, if_neg he, if_pos hseen]
          rw [hstep]
          exact ih st h0
        · cases hfetch : fetch aid with
          | raised =>
            have hstep : process_rss_feed (Entry.mk (some aid) :: es) fetch st now
                = process_rss_feed es fetch st now := by
              simp only [process_rss_feed, if_neg he, if_neg hseen, hfetch]
            rw [hstep]
            exact ih st h0
          | noneResult =>
            have hstep : process_rss_feed (Entry.mk (some aid) :: es) fetch st now
                = process_rss_feed es fetch st now := by
              simp only [process_rss_feed, if_neg he, if_neg hseen, hfetch]
            rw [hstep]
            exact ih st h0
          | ok fs =>
            cases fs with
            | nil =>
              have hstep : process_rss_feed (Entry.mk (some aid) :: es) fetch st now
                  = process_rss_feed es fetch st now := by
                simp only [process_rss_feed, if_neg he, if_neg hseen, hfetch]
              rw [hstep]
              exact ih st h0
            | cons w rest =>
              by_cases heq : aid = id
              · subst heq
                have h2 : lookupStore (st ++ [(aid, ⟨now, w.event⟩)]) aid
                    = some ⟨now, w.event⟩ := by
                  rw [lookupStore_append_of_none _ _ _ h0]
                  simp [lookupStore]
                have h3 := (process_rss_feed_seen es fetch
                  (st ++ [(aid, ⟨now, w.event⟩)]) now aid (by rw [h2]; rfl)).2
                right
                simp only [process_rss_feed, if_neg he, if_neg hseen, hfetch]
                rw [h3, h2]
                rfl
              · have h02 : lookupStore (st ++ [(aid, ⟨now, w.event⟩)]) id = none := by
                  rw [lookupStore_append_of_none _ _ _ h0]
                  simp [lookupStore, heq]
                have h1 := ih (st ++ [(aid, ⟨now, w.event⟩)]) h02
                simp only [process_rss_feed, if_neg he, if_neg hseen, hfetch]
                exact h1

/-- C3 witness: the theorem at a concrete entry whose by-ID fetch raises. -/
theorem mark_on_success_witness :
    lookupStore (process_rss_feed [⟨some "B"⟩] (fun _ => FetchResult.raised)
        [] "2026-10-11T01:00:00").2 "B" = none ∨
    lookupStore (process_rss_feed [⟨some "B"⟩] (fun _ => FetchResult.raised)
        [] "2026-10-11T01:00:00").2 "B"
      = (resolveOk FetchResult.raised).map
          (fun w => ProcessedInfo.mk "2026-10-11T01:00:00" w.event) :=
  mark_on_success [⟨some "B"⟩] (fun _ => FetchResult.raised) [] "2026-10-11T01:00:00" "B" rfl

/-- C10 witness: the theorem at a concrete unparseable record. -/
theorem unparseable_timestamp_retained_witness :
    ("X", (⟨"not-a-timestamp", some "Ev"⟩ : ProcessedInfo))
        ∈ load_processed_alerts [("X", ⟨"not-a-timestamp", some "Ev"⟩)] 0 ∧
    (lookupStore (load_processed_alerts
        [("X", ⟨"not-a-timestamp", some "Ev"⟩)] 0) "X").isSome = true ∧
    some "X" ∉ (process_json_api [⟨some "X", some "Heat Advisory"⟩]
        (load_processed_alerts [("X", ⟨"not-a-timestamp", some "Ev"⟩)] 0)
        "2026-10-12T00:00:00").1.map Warning.id :=
  unparseable_timestamp_retained [("X", ⟨"not-a-timestamp", some "Ev"⟩)] 0 "X"
    ⟨"not-a-timestamp", some "Ev"⟩ [⟨some "X", some "Heat Advisory"⟩]
    "2026-10-12T00:00:00" (by decide) (by decide)

end VisualWarnings
